import Mathlib

/-!
# Minimap plugin (`src/plugins/minimap/index.js`)

A shallow embedding of the geometry core of the minimap plugin:

* `_updateViewport`  : the viewport rectangle computed from the main-canvas transform;
* `initViewport`     : the drag controller (mousedown / mousemove / mouseleave / mouseup
                       handlers closed over `x, y, dragging, left, top, width, height`);
* `updateCanvas`     : the fit scale applied to the minimap canvas.

## Number model

JavaScript numbers are modelled by `JSNum`: a finite value is an exact rational, and the three
non-finite values `Infinity`, `-Infinity` and `NaN` are separate constructors.  Rounding of
doubles and the sign of zero are not modelled (a zero divisor is taken to be `+0`).
Values that the source obtains from DOM events, from `parseInt` of a numeric pixel length or
from the configuration are finite and are carried as `ℚ`.
-/

namespace Minimap

/-- A JavaScript number: a finite (exact) value, or one of the non-finite values. -/
inductive JSNum where
  | fin (q : ℚ)
  | posInf
  | negInf
  | nan
  deriving DecidableEq

namespace JSNum

/-- JavaScript `a * b`. -/
def mul : JSNum → JSNum → JSNum
  | fin a, fin b => fin (a * b)
  | nan, _ => nan
  | _, nan => nan
  | posInf, fin b => if 0 < b then posInf else if b < 0 then negInf else nan
  | negInf, fin b => if 0 < b then negInf else if b < 0 then posInf else nan
  | fin a, posInf => if 0 < a then posInf else if a < 0 then negInf else nan
  | fin a, negInf => if 0 < a then negInf else if a < 0 then posInf else nan
  | posInf, posInf => posInf
  | posInf, negInf => negInf
  | negInf, posInf => negInf
  | negInf, negInf => posInf

/-- JavaScript `a / b` (a zero divisor is `+0`). -/
def div : JSNum → JSNum → JSNum
  | fin a, fin b =>
      if b ≠ 0 then fin (a / b)
      else if 0 < a then posInf else if a < 0 then negInf else nan
  | nan, _ => nan
  | _, nan => nan
  | fin _, posInf => fin 0
  | fin _, negInf => fin 0
  | posInf, fin b => if 0 ≤ b then posInf else negInf
  | negInf, fin b => if 0 ≤ b then negInf else posInf
  | posInf, posInf => nan
  | posInf, negInf => nan
  | negInf, posInf => nan
  | negInf, negInf => nan

/-- JavaScript `a + b`. -/
def add : JSNum → JSNum → JSNum
  | fin a, fin b => fin (a + b)
  | nan, _ => nan
  | _, nan => nan
  | posInf, negInf => nan
  | negInf, posInf => nan
  | posInf, _ => posInf
  | negInf, _ => negInf
  | fin _, posInf => posInf
  | fin _, negInf => negInf

/-- JavaScript `Math.max(a, b)`. -/
def max : JSNum → JSNum → JSNum
  | nan, _ => nan
  | _, nan => nan
  | posInf, _ => posInf
  | _, posInf => posInf
  | negInf, b => b
  | a, negInf => a
  | fin a, fin b => fin (Max.max a b)

/-- JavaScript `isFinite(a)`. -/
def isFinite : JSNum → Bool
  | fin _ => true
  | _ => false

/-- A scale that must not reach rendering: zero, `NaN` or `±Infinity`. -/
def degenerate (a : JSNum) : Bool :=
  !a.isFinite || decide (a = fin 0)

end JSNum

/-! ## `_updateViewport` -/

/-- What `_updateViewport` reads: `size`, `graph.get('group').getMatrix()` entries 0 and 4,
`graph.getPointByCanvas(0, 0)` and the main-canvas dimensions. -/
structure ViewportInput where
  size0 : ℚ
  size1 : ℚ
  matrix0 : ℚ
  matrix4 : ℚ
  topLeftX : ℚ
  topLeftY : ℚ
  graphWidth : ℚ
  graphHeight : ℚ

/-- The css object that `_updateViewport` passes to `modifyCSS` (numbers before `+ 'px'`). -/
structure Rect where
  left : JSNum
  top : JSNum
  width : JSNum
  height : JSNum

/-- Lines 201-204 of `_updateViewport`: the four numbers of the css object that line 205 hands
to `modifyCSS`. -/
def _updateViewport (i : ViewportInput) : Rect :=
  let width := if i.matrix0 ≥ 1 then JSNum.div (.fin i.size0) (.fin i.matrix0) else .fin i.size0
  let height := if i.matrix4 ≥ 1 then JSNum.div (.fin i.size1) (.fin i.matrix4) else .fin i.size1
  let left := if i.topLeftX > 0 then
      JSNum.div (JSNum.mul (.fin i.topLeftX) (.fin i.size0)) (.fin i.graphWidth) else .fin 0
  let top := if i.topLeftY > 0 then
      JSNum.div (JSNum.mul (.fin i.topLeftY) (.fin i.size1)) (.fin i.graphHeight) else .fin 0
  { left := left, top := top, width := width, height := height }

/-! ## `initViewport`: the drag controller -/

/-- What `initViewport` reads once, when the rectangle element is created. -/
structure Cfg where
  /-- The minimap width `size[0]`. -/
  size0 : ℚ
  /-- The minimap height `size[1]`. -/
  size1 : ℚ
  /-- The value of `graph.get('width')`. -/
  graphWidth : ℚ
  /-- The value of `graph.get('height')`. -/
  graphHeight : ℚ
  /-- The value of `graph.get('pixelRatio')`, `none` when it is not set. -/
  graphPixelRatio : Option ℚ
  /-- The value of `graph.get('canvas').get('pixelRatio')`. -/
  canvasPixelRatio : ℚ

/-- Line 71: `graph.get('pixelRatio') || graph.get('canvas').get('pixelRatio')`. -/
def pixelRatio (cfg : Cfg) : ℚ :=
  match cfg.graphPixelRatio with
  | some p => if p = 0 then cfg.canvasPixelRatio else p
  | none => cfg.canvasPixelRatio

/-- Line 72: `graph.get('width') / size[0] * pixelRatio`. -/
def widthRatio (cfg : Cfg) : JSNum :=
  JSNum.mul (JSNum.div (.fin cfg.graphWidth) (.fin cfg.size0)) (.fin (pixelRatio cfg))

/-- Line 73: `graph.get('height') / size[1] * pixelRatio`. -/
def heightRatio (cfg : Cfg) : JSNum :=
  JSNum.mul (JSNum.div (.fin cfg.graphHeight) (.fin cfg.size1)) (.fin (pixelRatio cfg))

/-- The inline style of the rectangle element, as numbers of pixels, once a synchronization
pass has written all four properties (before that `width` and `height` are unset and
`parseInt` of them is `NaN`; that state is not modelled).  A CSS `width` or `height` is never
negative (the DOM drops such an assignment), which the type records. -/
structure Style where
  left : ℚ
  top : ℚ
  width : ℚ
  height : ℚ
  width_nonneg : 0 ≤ width
  height_nonneg : 0 ≤ height

/-- The result of `parseInt(s, 10)` on a numeric pixel length: the integer part, rounded
toward zero. -/
def parseInt (q : ℚ) : ℤ :=
  if 0 ≤ q then ⌊q⌋ else ⌈q⌉

/-- The variables the handlers of `initViewport` close over (lines 77-83), together with the
style of the rectangle element.  The source leaves the numeric variables `undefined` until
their first assignment; they are read only while `dragging`, which is set after them. -/
structure Ctrl where
  x : ℚ
  y : ℚ
  dragging : Bool
  left : ℚ
  top : ℚ
  width : ℚ
  height : ℚ
  style : Style

/-- The controller right after `initViewport`: `dragging` is falsy; the other variables are
not yet assigned and are given the value 0. -/
def Ctrl.init (s : Style) : Ctrl :=
  { x := 0, y := 0, dragging := false, left := 0, top := 0, width := 0, height := 0, style := s }

/-- What a handler does to the outside world. -/
inductive Effect where
  /-- Lines 122-125: `modifyCSS(viewport, { left: left + 'px', top: top + 'px' })`. -/
  | modifyCSS (left top : ℚ)
  /-- Line 126: `graph.translate(dx * widthRatio, dy * heightRatio)`. -/
  | translate (dx dy : JSNum)

/-- The events the container listens to, and a rewrite of the rectangle's style from outside
the controller (the synchronization pass). -/
inductive Event where
  | mousedown (onViewport : Bool) (clientX clientY : ℚ)
  | mousemove (clientX clientY : Option ℚ)
  | mouseleave
  | mouseup
  | restyle (s : Style)

/-- Lines 84-100. -/
def mousedown (cfg : Cfg) (c : Ctrl) (onViewport : Bool) (clientX clientY : ℚ) : Ctrl :=
  if onViewport = false then c
  else
    let c1 : Ctrl := { c with
      left := parseInt c.style.left
      top := parseInt c.style.top
      width := parseInt c.style.width
      height := parseInt c.style.height }
    if c1.width ≥ cfg.size0 ∨ c1.height ≥ cfg.size1 then c1
    else { c1 with dragging := true, x := clientX, y := clientY }

/-- Lines 107-112 (and 113-118 with `top`, `height`, `size[1]`): the clamped delta. -/
def clampDelta (pos extent size d : ℚ) : ℚ :=
  if pos - d < 0 then pos
  else if pos - d + extent > size then pos + extent - size
  else d

/-- Lines 101-129. -/
def mousemove (cfg : Cfg) (c : Ctrl) (clientX clientY : Option ℚ) : Ctrl × List Effect :=
  match c.dragging, clientX, clientY with
  | true, some ex, some ey =>
    let dx := clampDelta c.left c.width cfg.size0 (c.x - ex)
    let dy := clampDelta c.top c.height cfg.size1 (c.y - ey)
    let left := c.left - dx
    let top := c.top - dy
    ({ c with
        left := left, top := top, x := ex, y := ey
        style := { c.style with left := left, top := top } },
     [Effect.modifyCSS left top,
      Effect.translate (JSNum.mul (.fin dx) (widthRatio cfg)) (JSNum.mul (.fin dy) (heightRatio cfg))])
  | _, _, _ => (c, [])

/-- One event handled by the controller. -/
def step (cfg : Cfg) (c : Ctrl) : Event → Ctrl × List Effect
  | .mousedown onViewport clientX clientY => (mousedown cfg c onViewport clientX clientY, [])
  | .mousemove clientX clientY => mousemove cfg c clientX clientY
  | .mouseleave => ({ c with dragging := false }, [])
  | .mouseup => ({ c with dragging := false }, [])
  | .restyle s => ({ c with style := s }, [])

/-- A sequence of events, with the effects in the order they are issued. -/
def run (cfg : Cfg) (c : Ctrl) : List Event → Ctrl × List Effect
  | [] => (c, [])
  | e :: es =>
    let r := step cfg c e
    let r2 := run cfg r.1 es
    (r2.1, r.2 ++ r2.2)

/-- A sequence of pointer-move events, given by their `clientX`, `clientY`. -/
def moves (ms : List (Option ℚ × Option ℚ)) : List Event :=
  ms.map fun p => Event.mousemove p.1 p.2

/-- The horizontal amounts of the pan commands in a trace, added up. -/
def panSumX : List Effect → JSNum
  | [] => .fin 0
  | .translate dx _ :: es => JSNum.add dx (panSumX es)
  | .modifyCSS _ _ :: es => panSumX es

/-- The vertical amounts of the pan commands in a trace, added up. -/
def panSumY : List Effect → JSNum
  | [] => .fin 0
  | .translate _ dy :: es => JSNum.add dy (panSumY es)
  | .modifyCSS _ _ :: es => panSumY es

/-- A configuration: minimap 200x120, main canvas 800x600, pixel ratio 1. -/
def cfgA : Cfg :=
  { size0 := 200, size1 := 120, graphWidth := 800, graphHeight := 600,
    graphPixelRatio := none, canvasPixelRatio := 1 }

/-- A rectangle at left 10, top 20, 100 wide and 60 high. -/
def styleA : Style :=
  { left := 10, top := 20, width := 100, height := 60,
    width_nonneg := by norm_num, height_nonneg := by norm_num }

/-- A rectangle that fills the 200x120 minimap. -/
def styleFull : Style :=
  { left := 0, top := 0, width := 200, height := 120,
    width_nonneg := by norm_num, height_nonneg := by norm_num }

/-- A controller in a drag session begun at (50, 50) on the rectangle `styleA`. -/
def ctrlDrag : Ctrl :=
  { x := 50, y := 50, dragging := true, left := 10, top := 20, width := 100, height := 60,
    style := styleA }

/-- The drag session as a tagged state: the captured variables carry information only while
`dragging` is set. -/
inductive Session where
  | idle
  | dragging (left top width height x y : ℚ)

/-- The session a controller is in. -/
def Ctrl.session (c : Ctrl) : Session :=
  if c.dragging then .dragging c.left c.top c.width c.height c.x c.y else .idle

/-- The test of lines 85-96 on an event: a pointer-down on the rectangle whose captured width
and height are both below the minimap's. -/
def accepted (cfg : Cfg) (c : Ctrl) : Event → Bool
  | .mousedown true _ _ =>
    !(decide ((parseInt c.style.width : ℚ) ≥ cfg.size0) ||
      decide ((parseInt c.style.height : ℚ) ≥ cfg.size1))
  | _ => false

/-- The kinds of event that open or close a drag session. -/
inductive Marker where
  | down
  | up
  | leave
  deriving DecidableEq

/-- The most recent event among accepted pointer-down, pointer-up and pointer-leave in a
sequence handled from state `c`, starting from the marker `m`. -/
def lastMarker (cfg : Cfg) : Ctrl → List Event → Option Marker → Option Marker
  | _, [], m => m
  | c, e :: es, m =>
    lastMarker cfg (step cfg c e).1 es
      (if accepted cfg c e then some .down
       else match e with
         | .mouseup => some .up
         | .mouseleave => some .leave
         | _ => m)

/-- Two idle controllers showing the same rectangle: they differ only in variables that are
assigned before they are next read. -/
def idleAlike (c d : Ctrl) : Prop :=
  c.dragging = false ∧ d.dragging = false ∧ c.style = d.style

/-! ## `updateCanvas` -/

/-- The scale entries of the matrix of the minimap canvas. -/
structure CanvasMatrix where
  scaleX : JSNum
  scaleY : JSNum

/-- Modelled from the spec: `canvas.resetMatrix()` belongs to the canvas library, which is not
in the source; it resets any prior scale, leaving the identity. -/
def resetMatrix (_ : CanvasMatrix) : CanvasMatrix :=
  { scaleX := .fin 1, scaleY := .fin 1 }

/-- Modelled from the spec: `canvas.scale(s1, s2)` belongs to the canvas library, which is not
in the source; it multiplies the current scale entries by `s1` and `s2`. -/
def scale (m : CanvasMatrix) (s1 s2 : JSNum) : CanvasMatrix :=
  { scaleX := JSNum.mul m.scaleX s1, scaleY := JSNum.mul m.scaleY s2 }

/-- What `updateCanvas` reads after the content is rebuilt: `size`, the main-canvas dimensions,
`canvas.get('pixelRatio')` and the dimensions of `canvas.getBBox()`. -/
structure CanvasInput where
  size0 : ℚ
  size1 : ℚ
  graphWidth : ℚ
  graphHeight : ℚ
  pixelRatio : ℚ
  bboxWidth : JSNum
  bboxHeight : JSNum

/-- Lines 152-157 of `updateCanvas`, on the matrix of the minimap canvas. -/
def updateCanvas (i : CanvasInput) (m : CanvasMatrix) : CanvasMatrix :=
  let width := JSNum.max i.bboxWidth (.fin i.graphWidth)
  let height := JSNum.max i.bboxHeight (.fin i.graphHeight)
  let pixelRatio := JSNum.fin i.pixelRatio
  scale (resetMatrix m)
    (JSNum.mul (JSNum.div (.fin i.size0) width) pixelRatio)
    (JSNum.mul (JSNum.div (.fin i.size1) height) pixelRatio)

/-- The fit scale in the words of the specification:
`minimapDim / max(contentBBoxDim, mainCanvasDim) × pixelRatio`. -/
def specFitScale (minimapDim : ℚ) (contentBBoxDim : JSNum) (mainCanvasDim pixelRatio : ℚ) :
    JSNum :=
  JSNum.mul (JSNum.div (.fin minimapDim) (JSNum.max contentBBoxDim (.fin mainCanvasDim)))
    (.fin pixelRatio)

/-- The rectangle lies fully inside a `w` by `h` minimap: all four numbers are finite,
`left ≥ 0`, `top ≥ 0`, `width ≤ w`, `height ≤ h`, `left + width ≤ w`, `top + height ≤ h`. -/
def Rect.inside (r : Rect) (w h : ℚ) : Prop :=
  match r.left, r.top, r.width, r.height with
  | .fin l, .fin t, .fin wd, .fin ht =>
    0 ≤ l ∧ 0 ≤ t ∧ wd ≤ w ∧ ht ≤ h ∧ l + wd ≤ w ∧ t + ht ≤ h
  | _, _, _, _ => False

/-! ## Theorems: `_updateViewport` -/

theorem div_fin_of_ne (a b : ℚ) (hb : b ≠ 0) : JSNum.div (.fin a) (.fin b) = .fin (a / b) := by
  simp [JSNum.div, hb]

theorem div_le_self_of_one_le (a m : ℚ) (ha : 0 ≤ a) (hm : 1 ≤ m) : a / m ≤ a :=
  div_le_self ha hm

/-- C2 (as stated, refuted): with main canvas 800x600, minimap 200x120, scale 1 and the visible
top-left logical point (800, 0), `_updateViewport` yields left = 200 and width = 200, so the
rectangle is not inside the minimap (left + width = 400 > 200). -/
theorem updateViewport_not_inside :
    (_updateViewport ⟨200, 120, 1, 1, 800, 0, 800, 600⟩).left = .fin 200 ∧
    (_updateViewport ⟨200, 120, 1, 1, 800, 0, 800, 600⟩).width = .fin 200 ∧
    ¬ (_updateViewport ⟨200, 120, 1, 1, 800, 0, 800, 600⟩).inside 200 120 := by
  have hl : (_updateViewport ⟨200, 120, 1, 1, 800, 0, 800, 600⟩).left = .fin 200 := by
    simp [_updateViewport, JSNum.div, JSNum.mul]
  have hw : (_updateViewport ⟨200, 120, 1, 1, 800, 0, 800, 600⟩).width = .fin 200 := by
    simp [_updateViewport, JSNum.div]
  have ht : (_updateViewport ⟨200, 120, 1, 1, 800, 0, 800, 600⟩).top = .fin 0 := by
    simp [_updateViewport]
  have hh : (_updateViewport ⟨200, 120, 1, 1, 800, 0, 800, 600⟩).height = .fin 120 := by
    simp [_updateViewport, JSNum.div]
  refine ⟨hl, hw, ?_⟩
  unfold Rect.inside
  rw [hl, hw, ht, hh]
  norm_num

/-- C2 (amended): for every transform and positive main and minimap dimensions the rectangle of
`_updateViewport` has finite entries with `left ≥ 0`, `top ≥ 0`, `0 < width ≤ minimapWidth`,
`0 < height ≤ minimapHeight`; `left + width ≤ minimapWidth` holds when the visible top-left
point has `x ≤ 0` and `top + height ≤ minimapHeight` when it has `y ≤ 0`. -/
theorem updateViewport_lower_clamped (i : ViewportInput)
    (hs0 : 0 < i.size0) (hs1 : 0 < i.size1) (hw : 0 < i.graphWidth) (hh : 0 < i.graphHeight) :
    ∃ l t w h : ℚ,
      (_updateViewport i).left = .fin l ∧ (_updateViewport i).top = .fin t ∧
      (_updateViewport i).width = .fin w ∧ (_updateViewport i).height = .fin h ∧
      0 ≤ l ∧ 0 ≤ t ∧ 0 < w ∧ w ≤ i.size0 ∧ 0 < h ∧ h ≤ i.size1 ∧
      (i.topLeftX ≤ 0 → l + w ≤ i.size0) ∧ (i.topLeftY ≤ 0 → t + h ≤ i.size1) := by
  refine ⟨if i.topLeftX > 0 then i.topLeftX * i.size0 / i.graphWidth else 0,
    if i.topLeftY > 0 then i.topLeftY * i.size1 / i.graphHeight else 0,
    if i.matrix0 ≥ 1 then i.size0 / i.matrix0 else i.size0,
    if i.matrix4 ≥ 1 then i.size1 / i.matrix4 else i.size1, ?_, ?_, ?_, ?_, ?_, ?_, ?_, ?_, ?_, ?_, ?_, ?_⟩
  · simp only [_updateViewport]
    split_ifs
    · simp [JSNum.mul, div_fin_of_ne _ _ (ne_of_gt hw)]
    · rfl
  · simp only [_updateViewport]
    split_ifs
    · simp [JSNum.mul, div_fin_of_ne _ _ (ne_of_gt hh)]
    · rfl
  · simp only [_updateViewport]
    split_ifs with hm
    · exact div_fin_of_ne _ _ (by linarith)
    · rfl
  · simp only [_updateViewport]
    split_ifs with hm
    · exact div_fin_of_ne _ _ (by linarith)
    · rfl
  · split_ifs with hx
    · positivity
    · exact le_refl _
  · split_ifs with hy
    · positivity
    · exact le_refl _
  · split_ifs with hm
    · have : 0 < i.matrix0 := by linarith
      positivity
    · exact hs0
  · split_ifs with hm
    · exact div_le_self_of_one_le _ _ hs0.le hm
    · exact le_refl _
  · split_ifs with hm
    · have : 0 < i.matrix4 := by linarith
      positivity
    · exact hs1
  · split_ifs with hm
    · exact div_le_self_of_one_le _ _ hs1.le hm
    · exact le_refl _
  · intro hx
    rw [if_neg (not_lt.mpr hx), zero_add]
    split_ifs with hm
    · exact div_le_self_of_one_le _ _ hs0.le hm
    · exact le_refl _
  · intro hy
    rw [if_neg (not_lt.mpr hy), zero_add]
    split_ifs with hm
    · exact div_le_self_of_one_le _ _ hs1.le hm
    · exact le_refl _

theorem updateViewport_lower_clamped_witness :
    ∃ l t w h : ℚ,
      (_updateViewport ⟨200, 120, 2, 2, 600, 0, 800, 600⟩).left = .fin l ∧
      (_updateViewport ⟨200, 120, 2, 2, 600, 0, 800, 600⟩).top = .fin t ∧
      (_updateViewport ⟨200, 120, 2, 2, 600, 0, 800, 600⟩).width = .fin w ∧
      (_updateViewport ⟨200, 120, 2, 2, 600, 0, 800, 600⟩).height = .fin h ∧
      0 ≤ l ∧ 0 ≤ t ∧ 0 < w ∧ w ≤ 200 ∧ 0 < h ∧ h ≤ 120 ∧
      ((600 : ℚ) ≤ 0 → l + w ≤ 200) ∧ ((0 : ℚ) ≤ 0 → t + h ≤ 120) :=
  updateViewport_lower_clamped ⟨200, 120, 2, 2, 600, 0, 800, 600⟩
    (by norm_num) (by norm_num) (by norm_num) (by norm_num)

/-- C3: with positive minimap dimensions, on each axis the size computed by `_updateViewport`
is `minimapDim / scale` when `scale ≥ 1` (then `> 0` and `≤ minimapDim`) and exactly
`minimapDim` when `scale < 1`; with minimap 200x120, main canvas 800x600 and scale 2 the
rectangle is 100 wide and 60 high, whatever the visible top-left point. -/
theorem updateViewport_size_rule (i : ViewportInput) (hs0 : 0 < i.size0) (hs1 : 0 < i.size1) :
    (1 ≤ i.matrix0 → (_updateViewport i).width = .fin (i.size0 / i.matrix0) ∧
        0 < i.size0 / i.matrix0 ∧ i.size0 / i.matrix0 ≤ i.size0) ∧
    (i.matrix0 < 1 → (_updateViewport i).width = .fin i.size0) ∧
    (1 ≤ i.matrix4 → (_updateViewport i).height = .fin (i.size1 / i.matrix4) ∧
        0 < i.size1 / i.matrix4 ∧ i.size1 / i.matrix4 ≤ i.size1) ∧
    (i.matrix4 < 1 → (_updateViewport i).height = .fin i.size1) ∧
    (∀ tx ty : ℚ, (_updateViewport ⟨200, 120, 2, 2, tx, ty, 800, 600⟩).width = .fin 100 ∧
        (_updateViewport ⟨200, 120, 2, 2, tx, ty, 800, 600⟩).height = .fin 60) := by
  refine ⟨?_, ?_, ?_, ?_, ?_⟩
  · intro hm
    have hpos : 0 < i.matrix0 := by linarith
    refine ⟨?_, by positivity, div_le_self_of_one_le _ _ hs0.le hm⟩
    simp only [_updateViewport, ge_iff_le, if_pos hm]
    exact div_fin_of_ne _ _ (ne_of_gt hpos)
  · intro hm
    simp only [_updateViewport, ge_iff_le, if_neg (not_le.mpr hm)]
  · intro hm
    have hpos : 0 < i.matrix4 := by linarith
    refine ⟨?_, by positivity, div_le_self_of_one_le _ _ hs1.le hm⟩
    simp only [_updateViewport, ge_iff_le, if_pos hm]
    exact div_fin_of_ne _ _ (ne_of_gt hpos)
  · intro hm
    simp only [_updateViewport, ge_iff_le, if_neg (not_le.mpr hm)]
  · intro tx ty
    constructor
    · simp [_updateViewport, JSNum.div]; norm_num
    · simp [_updateViewport, JSNum.div]; norm_num

theorem updateViewport_size_rule_witness :
    (0 : ℚ) < 200 ∧ (0 : ℚ) < 120 ∧
    (_updateViewport ⟨200, 120, 2, 1/2, 0, 0, 800, 600⟩).width = .fin (200 / 2) ∧
    (_updateViewport ⟨200, 120, 2, 1/2, 0, 0, 800, 600⟩).height = .fin 120 :=
  ⟨by norm_num, by norm_num,
   ((updateViewport_size_rule ⟨200, 120, 2, 1/2, 0, 0, 800, 600⟩
      (by norm_num) (by norm_num)).1 (by norm_num)).1,
   (updateViewport_size_rule ⟨200, 120, 2, 1/2, 0, 0, 800, 600⟩
      (by norm_num) (by norm_num)).2.2.2.1 (by norm_num)⟩

/-! ## Theorems: the drag controller -/

theorem clampDelta_low (pos extent size d : ℚ) (h : pos - d < 0) :
    clampDelta pos extent size d = pos := by
  simp [clampDelta, h]

theorem clampDelta_high (pos extent size d : ℚ) (h1 : ¬ pos - d < 0)
    (h2 : pos - d + extent > size) : clampDelta pos extent size d = pos + extent - size := by
  simp only [clampDelta, if_neg h1, if_pos h2]

theorem clampDelta_bounds (pos extent size d : ℚ) (he : extent < size) :
    0 ≤ pos - clampDelta pos extent size d ∧ pos - clampDelta pos extent size d + extent ≤ size := by
  unfold clampDelta
  split_ifs with h1 h2
  · constructor <;> linarith
  · constructor <;> linarith
  · constructor <;> linarith

theorem mousemove_idle (cfg : Cfg) (c : Ctrl) (a b : Option ℚ) (h : c.dragging = false) :
    mousemove cfg c a b = (c, []) := by
  simp [mousemove, h]

theorem mousemove_nil (cfg : Cfg) (c : Ctrl) (a b : Option ℚ) (h : a = none ∨ b = none) :
    mousemove cfg c a b = (c, []) := by
  rcases h with rfl | rfl
  · cases hd : c.dragging <;> simp [mousemove, hd]
  · cases hd : c.dragging <;> cases a <;> simp [mousemove, hd]

theorem mousemove_drag (cfg : Cfg) (c : Ctrl) (ex ey : ℚ) (h : c.dragging = true) :
    mousemove cfg c (some ex) (some ey) =
      ({ c with
          left := c.left - clampDelta c.left c.width cfg.size0 (c.x - ex)
          top := c.top - clampDelta c.top c.height cfg.size1 (c.y - ey)
          x := ex, y := ey
          style := { c.style with
            left := c.left - clampDelta c.left c.width cfg.size0 (c.x - ex)
            top := c.top - clampDelta c.top c.height cfg.size1 (c.y - ey) } },
       [Effect.modifyCSS (c.left - clampDelta c.left c.width cfg.size0 (c.x - ex))
          (c.top - clampDelta c.top c.height cfg.size1 (c.y - ey)),
        Effect.translate
          (JSNum.mul (.fin (clampDelta c.left c.width cfg.size0 (c.x - ex))) (widthRatio cfg))
          (JSNum.mul (.fin (clampDelta c.top c.height cfg.size1 (c.y - ey))) (heightRatio cfg))]) := by
  simp [mousemove, h]

theorem mousemove_keeps (cfg : Cfg) (c : Ctrl) (a b : Option ℚ) :
    (mousemove cfg c a b).1.width = c.width ∧ (mousemove cfg c a b).1.height = c.height ∧
    (mousemove cfg c a b).1.dragging = c.dragging := by
  cases hd : c.dragging
  · rw [mousemove_idle cfg c a b hd]; simp [hd]
  · cases a with
    | none => rw [mousemove_nil cfg c _ b (Or.inl rfl)]; simp [hd]
    | some ex =>
      cases b with
      | none => rw [mousemove_nil cfg c _ _ (Or.inr rfl)]; simp [hd]
      | some ey => rw [mousemove_drag cfg c ex ey hd]; simp [hd]

theorem mousemove_written (cfg : Cfg) (c : Ctrl) (a b : Option ℚ)
    (hw : c.width < cfg.size0) (hh : c.height < cfg.size1) (l t : ℚ)
    (hmem : Effect.modifyCSS l t ∈ (mousemove cfg c a b).2) :
    0 ≤ l ∧ 0 ≤ t ∧ l + c.width ≤ cfg.size0 ∧ t + c.height ≤ cfg.size1 := by
  cases hd : c.dragging
  · rw [mousemove_idle cfg c a b hd] at hmem; simp at hmem
  · cases a with
    | none => rw [mousemove_nil cfg c _ b (Or.inl rfl)] at hmem; simp at hmem
    | some ex =>
      cases b with
      | none => rw [mousemove_nil cfg c _ _ (Or.inr rfl)] at hmem; simp at hmem
      | some ey =>
        rw [mousemove_drag cfg c ex ey hd] at hmem
        simp at hmem
        obtain ⟨rfl, rfl⟩ := hmem
        have h1 := clampDelta_bounds c.left c.width cfg.size0 (c.x - ex) hw
        have h2 := clampDelta_bounds c.top c.height cfg.size1 (c.y - ey) hh
        exact ⟨h1.1, h2.1, h1.2, h2.2⟩

theorem run_moves_written (cfg : Cfg) (ms : List (Option ℚ × Option ℚ)) :
    ∀ c : Ctrl, c.width < cfg.size0 → c.height < cfg.size1 →
      ∀ l t, Effect.modifyCSS l t ∈ (run cfg c (moves ms)).2 →
        0 ≤ l ∧ 0 ≤ t ∧ l + c.width ≤ cfg.size0 ∧ t + c.height ≤ cfg.size1 := by
  induction ms with
  | nil => intro c _ _ l t h; simp [moves, run] at h
  | cons m ms ih =>
    intro c hw hh l t h
    simp only [moves, List.map_cons, run, step, List.mem_append] at h
    have hk := mousemove_keeps cfg c m.1 m.2
    rcases h with h | h
    · exact mousemove_written cfg c m.1 m.2 hw hh l t h
    · have := ih (mousemove cfg c m.1 m.2).1 (by rw [hk.1]; exact hw) (by rw [hk.2.1]; exact hh)
        l t h
      rw [hk.1, hk.2.1] at this
      exact this

theorem mousedown_accept (cfg : Cfg) (c : Ctrl) (clientX clientY : ℚ)
    (hw : (parseInt c.style.width : ℚ) < cfg.size0)
    (hh : (parseInt c.style.height : ℚ) < cfg.size1) :
    mousedown cfg c true clientX clientY =
      { c with
        left := parseInt c.style.left, top := parseInt c.style.top
        width := parseInt c.style.width, height := parseInt c.style.height
        dragging := true, x := clientX, y := clientY } := by
  simp [mousedown, not_le.mpr hw, not_le.mpr hh]

/-- C1: after an accepted pointer-down (captured width below the minimap width and captured
height below the minimap height) the controller is dragging, and for every sequence of
pointer-move events every rectangle position `(left, top)` written by the mousemove handler
satisfies `left ≥ 0`, `top ≥ 0`, `left + width ≤ minimapWidth` and
`top + height ≤ minimapHeight`. -/
theorem drag_stays_inside (cfg : Cfg) (c : Ctrl) (clientX clientY : ℚ)
    (ms : List (Option ℚ × Option ℚ))
    (hw : (parseInt c.style.width : ℚ) < cfg.size0)
    (hh : (parseInt c.style.height : ℚ) < cfg.size1) :
    (mousedown cfg c true clientX clientY).dragging = true ∧
    (mousedown cfg c true clientX clientY).width = parseInt c.style.width ∧
    (mousedown cfg c true clientX clientY).height = parseInt c.style.height ∧
    ∀ l t, Effect.modifyCSS l t ∈ (run cfg (mousedown cfg c true clientX clientY) (moves ms)).2 →
      0 ≤ l ∧ 0 ≤ t ∧ l + (parseInt c.style.width : ℚ) ≤ cfg.size0 ∧
        t + (parseInt c.style.height : ℚ) ≤ cfg.size1 := by
  have hacc := mousedown_accept cfg c clientX clientY hw hh
  have hd : (mousedown cfg c true clientX clientY).dragging = true := by rw [hacc]
  have hwd : (mousedown cfg c true clientX clientY).width = parseInt c.style.width := by
    rw [hacc]
  have hht : (mousedown cfg c true clientX clientY).height = parseInt c.style.height := by
    rw [hacc]
  refine ⟨hd, hwd, hht, ?_⟩
  intro l t h
  have key := run_moves_written cfg ms (mousedown cfg c true clientX clientY)
    (by rw [hwd]; exact hw) (by rw [hht]; exact hh) l t h
  rw [hwd, hht] at key
  exact key

theorem parseInt_natCast (n : ℕ) : parseInt (n : ℚ) = n := by
  simp [parseInt]

theorem parseInt_nonneg (q : ℚ) (h : 0 ≤ q) : 0 ≤ parseInt q := by
  simp only [parseInt, if_pos h]
  exact Int.floor_nonneg.mpr h

theorem widthRatio_fin (cfg : Cfg) (h : cfg.size0 ≠ 0) :
    widthRatio cfg = .fin (cfg.graphWidth / cfg.size0 * pixelRatio cfg) := by
  simp [widthRatio, JSNum.div, JSNum.mul, h]

theorem heightRatio_fin (cfg : Cfg) (h : cfg.size1 ≠ 0) :
    heightRatio cfg = .fin (cfg.graphHeight / cfg.size1 * pixelRatio cfg) := by
  simp [heightRatio, JSNum.div, JSNum.mul, h]

theorem styleA_parsed :
    parseInt styleA.left = 10 ∧ parseInt styleA.top = 20 ∧
    parseInt styleA.width = 100 ∧ parseInt styleA.height = 60 := by
  refine ⟨?_, ?_, ?_, ?_⟩
  · exact parseInt_natCast 10
  · exact parseInt_natCast 20
  · exact parseInt_natCast 100
  · exact parseInt_natCast 60

theorem styleA_drag_trace :
    (run cfgA (mousedown cfgA (Ctrl.init styleA) true 50 50) (moves [(some 300, some 50)])).2 =
      [Effect.modifyCSS 100 20, Effect.translate (.fin (-360)) (.fin 0)] := by
  have hw : ((parseInt (Ctrl.init styleA).style.width : ℤ) : ℚ) < cfgA.size0 := by
    show ((parseInt styleA.width : ℤ) : ℚ) < 200
    rw [styleA_parsed.2.2.1]; norm_num
  have hh : ((parseInt (Ctrl.init styleA).style.height : ℤ) : ℚ) < cfgA.size1 := by
    show ((parseInt styleA.height : ℤ) : ℚ) < 120
    rw [styleA_parsed.2.2.2]; norm_num
  have hwr : widthRatio cfgA = .fin 4 := by
    rw [widthRatio_fin cfgA (by norm_num [cfgA])]; norm_num [cfgA, pixelRatio]
  have hhr : heightRatio cfgA = .fin 5 := by
    rw [heightRatio_fin cfgA (by norm_num [cfgA])]; norm_num [cfgA, pixelRatio]
  have hs : (Ctrl.init styleA).style = styleA := rfl
  simp only [moves, List.map_cons, List.map_nil, run, step]
  rw [mousedown_accept cfgA (Ctrl.init styleA) 50 50 hw hh, hs,
    styleA_parsed.1, styleA_parsed.2.1, styleA_parsed.2.2.1, styleA_parsed.2.2.2,
    mousemove_drag _ _ 300 50 rfl, hwr, hhr]
  norm_num [clampDelta, cfgA, JSNum.mul]

theorem drag_stays_inside_witness :
    (0 : ℚ) ≤ 100 ∧ (0 : ℚ) ≤ 20 ∧
      100 + (parseInt (Ctrl.init styleA).style.width : ℚ) ≤ cfgA.size0 ∧
      20 + (parseInt (Ctrl.init styleA).style.height : ℚ) ≤ cfgA.size1 :=
  (drag_stays_inside cfgA (Ctrl.init styleA) 50 50 [(some 300, some 50)]
    (by
      show ((parseInt styleA.width : ℤ) : ℚ) < 200
      rw [styleA_parsed.2.2.1]; norm_num)
    (by
      show ((parseInt styleA.height : ℤ) : ℚ) < 120
      rw [styleA_parsed.2.2.2]; norm_num)).2.2.2 100 20
    (by rw [styleA_drag_trace]; exact List.mem_cons_self _ _)

theorem run_down_move (cfg : Cfg) (c : Ctrl) (cx cy ex ey : ℚ)
    (hw : (parseInt c.style.width : ℚ) < cfg.size0)
    (hh : (parseInt c.style.height : ℚ) < cfg.size1) :
    (run cfg c [.mousedown true cx cy, .mousemove (some ex) (some ey)]).2 =
      [Effect.modifyCSS
          (parseInt c.style.left -
            clampDelta (parseInt c.style.left) (parseInt c.style.width) cfg.size0 (cx - ex))
          (parseInt c.style.top -
            clampDelta (parseInt c.style.top) (parseInt c.style.height) cfg.size1 (cy - ey)),
        Effect.translate
          (JSNum.mul (.fin (clampDelta (parseInt c.style.left) (parseInt c.style.width)
            cfg.size0 (cx - ex))) (widthRatio cfg))
          (JSNum.mul (.fin (clampDelta (parseInt c.style.top) (parseInt c.style.height)
            cfg.size1 (cy - ey))) (heightRatio cfg))] ∧
    (run cfg c [.mousedown true cx cy, .mousemove (some ex) (some ey)]).1.left =
      parseInt c.style.left -
        clampDelta (parseInt c.style.left) (parseInt c.style.width) cfg.size0 (cx - ex) ∧
    (run cfg c [.mousedown true cx cy, .mousemove (some ex) (some ey)]).1.style.left =
      parseInt c.style.left -
        clampDelta (parseInt c.style.left) (parseInt c.style.width) cfg.size0 (cx - ex) := by
  have hacc := mousedown_accept cfg c cx cy hw hh
  simp only [run, step, List.nil_append, List.append_nil]
  rw [hacc, mousemove_drag _ _ _ _ rfl]
  exact ⟨rfl, rfl, rfl⟩

/-- C4 (as stated, refuted): minimap 200x120, main canvas 800x600, pixel ratio 1 (widthRatio 4),
rectangle at left 10, width 100, pointer-down at (50, 50).  The move with
`lastX - currentX = -30` (pointer to (80, 50)) puts the rectangle at left 40 and issues the pan
`-30 × widthRatio = -120`, not `30 × widthRatio = 120`; the move with
`currentX - lastX = -30` (pointer to (20, 50)) is clamped: left 0 and pan `10 × widthRatio`. -/
theorem scenarioC_pan_is_negative :
    (run cfgA (Ctrl.init styleA) [.mousedown true 50 50, .mousemove (some 80) (some 50)]).2 =
      [Effect.modifyCSS 40 20, Effect.translate (.fin (-120)) (.fin 0)] ∧
    JSNum.mul (.fin 30) (widthRatio cfgA) = .fin 120 ∧
    (run cfgA (Ctrl.init styleA) [.mousedown true 50 50, .mousemove (some 20) (some 50)]).2 =
      [Effect.modifyCSS 0 20, Effect.translate (.fin 40) (.fin 0)] := by
  have hw : ((parseInt (Ctrl.init styleA).style.width : ℤ) : ℚ) < cfgA.size0 := by
    show ((parseInt styleA.width : ℤ) : ℚ) < 200
    rw [styleA_parsed.2.2.1]; norm_num
  have hh : ((parseInt (Ctrl.init styleA).style.height : ℤ) : ℚ) < cfgA.size1 := by
    show ((parseInt styleA.height : ℤ) : ℚ) < 120
    rw [styleA_parsed.2.2.2]; norm_num
  have hwr : widthRatio cfgA = .fin 4 := by
    rw [widthRatio_fin cfgA (by norm_num [cfgA])]; norm_num [cfgA, pixelRatio]
  have hhr : heightRatio cfgA = .fin 5 := by
    rw [heightRatio_fin cfgA (by norm_num [cfgA])]; norm_num [cfgA, pixelRatio]
  have hs : (Ctrl.init styleA).style = styleA := rfl
  refine ⟨?_, ?_, ?_⟩
  · rw [(run_down_move cfgA (Ctrl.init styleA) 50 50 80 50 hw hh).1, hwr, hhr, hs,
      styleA_parsed.1, styleA_parsed.2.1, styleA_parsed.2.2.1, styleA_parsed.2.2.2]
    norm_num [clampDelta, cfgA, JSNum.mul]
  · rw [hwr]; norm_num [JSNum.mul]
  · rw [(run_down_move cfgA (Ctrl.init styleA) 50 50 20 50 hw hh).1, hwr, hhr, hs,
      styleA_parsed.1, styleA_parsed.2.1, styleA_parsed.2.2.1, styleA_parsed.2.2.2]
    norm_num [clampDelta, cfgA, JSNum.mul]

/-- C4 (amended): in a 200-wide minimap, with the rectangle at left 10 and width 100, a
pointer-down at (50, 50) followed by the pointer-move to (80, 50), whose delta
`(lastX - currentX, lastY - currentY)` is (-30, 0), moves the rectangle to left 40 without
clamping and issues one pan command whose horizontal amount is `-30 × widthRatio`, where
`widthRatio = mainWidth / 200 × pixelRatio`. -/
theorem scenarioC_pan (cfg : Cfg) (c : Ctrl) (hsz : cfg.size0 = 200)
    (hl : c.style.left = 10) (hwd : c.style.width = 100)
    (hh : (parseInt c.style.height : ℚ) < cfg.size1) :
    (run cfg c [.mousedown true 50 50, .mousemove (some 80) (some 50)]).1.left = 40 ∧
    (run cfg c [.mousedown true 50 50, .mousemove (some 80) (some 50)]).1.style.left = 40 ∧
    widthRatio cfg = .fin (cfg.graphWidth / 200 * pixelRatio cfg) ∧
    ∃ t dy, (run cfg c [.mousedown true 50 50, .mousemove (some 80) (some 50)]).2 =
      [Effect.modifyCSS 40 t,
       Effect.translate (JSNum.mul (.fin (-30)) (widthRatio cfg)) dy] := by
  have hpl : parseInt c.style.left = 10 := by rw [hl]; exact parseInt_natCast 10
  have hpw : parseInt c.style.width = 100 := by rw [hwd]; exact parseInt_natCast 100
  have hw : (parseInt c.style.width : ℚ) < cfg.size0 := by rw [hpw, hsz]; norm_num
  have hcl : clampDelta (parseInt c.style.left) (parseInt c.style.width) cfg.size0 (50 - 80)
      = -30 := by
    rw [hpl, hpw, hsz]; norm_num [clampDelta]
  obtain ⟨h1, h2, h3⟩ := run_down_move cfg c 50 50 80 50 hw hh
  rw [hcl] at h1 h2 h3
  rw [hpl] at h1 h2 h3
  refine ⟨by rw [h2]; norm_num, by rw [h3]; norm_num, ?_, ?_⟩
  · rw [widthRatio_fin cfg (by rw [hsz]; norm_num), hsz]
  · refine ⟨parseInt c.style.top -
        clampDelta (parseInt c.style.top) (parseInt c.style.height) cfg.size1 (50 - 50),
      JSNum.mul (.fin (clampDelta (parseInt c.style.top) (parseInt c.style.height)
        cfg.size1 (50 - 50))) (heightRatio cfg), ?_⟩
    rw [h1]
    norm_num

theorem scenarioC_pan_witness :
    (run cfgA (Ctrl.init styleA) [.mousedown true 50 50, .mousemove (some 80) (some 50)]).1.left
      = 40 ∧
    (run cfgA (Ctrl.init styleA)
      [.mousedown true 50 50, .mousemove (some 80) (some 50)]).1.style.left = 40 ∧
    widthRatio cfgA = .fin (cfgA.graphWidth / 200 * pixelRatio cfgA) ∧
    ∃ t dy, (run cfgA (Ctrl.init styleA)
        [.mousedown true 50 50, .mousemove (some 80) (some 50)]).2 =
      [Effect.modifyCSS 40 t,
       Effect.translate (JSNum.mul (.fin (-30)) (widthRatio cfgA)) dy] :=
  scenarioC_pan cfgA (Ctrl.init styleA) rfl rfl rfl
    (by
      show ((parseInt styleA.height : ℤ) : ℚ) < 120
      rw [styleA_parsed.2.2.2]; norm_num)

/-- C5: in a dragging state whose rectangle is within the minimap, a pointer-move whose raw
delta would push the right edge past `minimapWidth` sets left to exactly
`minimapWidth - width` and pans horizontally by `(old left + width - minimapWidth) × widthRatio`,
which is not the raw delta; one that would push the left edge below 0 sets left to exactly 0
and pans by `(old left) × widthRatio`; the same holds vertically with top, height,
`minimapHeight` and `heightRatio`. -/
theorem clamped_step (cfg : Cfg) (c : Ctrl) (ex ey : ℚ) (hd : c.dragging = true)
    (hl : 0 ≤ c.left) (ht : 0 ≤ c.top)
    (hr : c.left + c.width ≤ cfg.size0) (hb : c.top + c.height ≤ cfg.size1) :
    (c.left - (c.x - ex) + c.width > cfg.size0 →
      (mousemove cfg c (some ex) (some ey)).1.left = cfg.size0 - c.width ∧
      (∃ t dy, (mousemove cfg c (some ex) (some ey)).2 =
        [Effect.modifyCSS (cfg.size0 - c.width) t,
         Effect.translate
           (JSNum.mul (.fin (c.left + c.width - cfg.size0)) (widthRatio cfg)) dy]) ∧
      c.left + c.width - cfg.size0 ≠ c.x - ex) ∧
    (c.left - (c.x - ex) < 0 →
      (mousemove cfg c (some ex) (some ey)).1.left = 0 ∧
      (∃ t dy, (mousemove cfg c (some ex) (some ey)).2 =
        [Effect.modifyCSS 0 t,
         Effect.translate (JSNum.mul (.fin c.left) (widthRatio cfg)) dy]) ∧
      c.left ≠ c.x - ex) ∧
    (c.top - (c.y - ey) + c.height > cfg.size1 →
      (mousemove cfg c (some ex) (some ey)).1.top = cfg.size1 - c.height ∧
      (∃ l dx, (mousemove cfg c (some ex) (some ey)).2 =
        [Effect.modifyCSS l (cfg.size1 - c.height),
         Effect.translate dx
           (JSNum.mul (.fin (c.top + c.height - cfg.size1)) (heightRatio cfg))]) ∧
      c.top + c.height - cfg.size1 ≠ c.y - ey) ∧
    (c.top - (c.y - ey) < 0 →
      (mousemove cfg c (some ex) (some ey)).1.top = 0 ∧
      (∃ l dx, (mousemove cfg c (some ex) (some ey)).2 =
        [Effect.modifyCSS l 0,
         Effect.translate dx (JSNum.mul (.fin c.top) (heightRatio cfg))]) ∧
      c.top ≠ c.y - ey) := by
  rw [mousemove_drag cfg c ex ey hd]
  refine ⟨?_, ?_, ?_, ?_⟩
  · intro h
    have hn : ¬ c.left - (c.x - ex) < 0 := by
      intro h0; linarith
    have hc := clampDelta_high c.left c.width cfg.size0 (c.x - ex) hn h
    refine ⟨?_, ⟨c.top - clampDelta c.top c.height cfg.size1 (c.y - ey),
      JSNum.mul (.fin (clampDelta c.top c.height cfg.size1 (c.y - ey))) (heightRatio cfg), ?_⟩, ?_⟩
    · show c.left - clampDelta c.left c.width cfg.size0 (c.x - ex) = cfg.size0 - c.width
      rw [hc]; ring
    · rw [hc]
      have : c.left - (c.left + c.width - cfg.size0) = cfg.size0 - c.width := by ring
      rw [this]
    · intro he; linarith
  · intro h
    have hc := clampDelta_low c.left c.width cfg.size0 (c.x - ex) h
    refine ⟨?_, ⟨c.top - clampDelta c.top c.height cfg.size1 (c.y - ey),
      JSNum.mul (.fin (clampDelta c.top c.height cfg.size1 (c.y - ey))) (heightRatio cfg), ?_⟩, ?_⟩
    · show c.left - clampDelta c.left c.width cfg.size0 (c.x - ex) = 0
      rw [hc]; ring
    · rw [hc, sub_self]
    · intro he; linarith
  · intro h
    have hn : ¬ c.top - (c.y - ey) < 0 := by
      intro h0; linarith
    have hc := clampDelta_high c.top c.height cfg.size1 (c.y - ey) hn h
    refine ⟨?_, ⟨c.left - clampDelta c.left c.width cfg.size0 (c.x - ex),
      JSNum.mul (.fin (clampDelta c.left c.width cfg.size0 (c.x - ex))) (widthRatio cfg), ?_⟩, ?_⟩
    · show c.top - clampDelta c.top c.height cfg.size1 (c.y - ey) = cfg.size1 - c.height
      rw [hc]; ring
    · rw [hc]
      have : c.top - (c.top + c.height - cfg.size1) = cfg.size1 - c.height := by ring
      rw [this]
    · intro he; linarith
  · intro h
    have hc := clampDelta_low c.top c.height cfg.size1 (c.y - ey) h
    refine ⟨?_, ⟨c.left - clampDelta c.left c.width cfg.size0 (c.x - ex),
      JSNum.mul (.fin (clampDelta c.left c.width cfg.size0 (c.x - ex))) (widthRatio cfg), ?_⟩, ?_⟩
    · show c.top - clampDelta c.top c.height cfg.size1 (c.y - ey) = 0
      rw [hc]; ring
    · rw [hc, sub_self]
    · intro he; linarith

theorem clamped_step_witness :
    (mousemove cfgA ctrlDrag (some 250) (some 200)).1.left = cfgA.size0 - ctrlDrag.width ∧
    (∃ t dy, (mousemove cfgA ctrlDrag (some 250) (some 200)).2 =
      [Effect.modifyCSS (cfgA.size0 - ctrlDrag.width) t,
       Effect.translate
         (JSNum.mul (.fin (ctrlDrag.left + ctrlDrag.width - cfgA.size0)) (widthRatio cfgA)) dy]) ∧
    ctrlDrag.left + ctrlDrag.width - cfgA.size0 ≠ ctrlDrag.x - 250 :=
  (clamped_step cfgA ctrlDrag 250 200 rfl (by norm_num [ctrlDrag]) (by norm_num [ctrlDrag])
    (by norm_num [ctrlDrag, cfgA]) (by norm_num [ctrlDrag, cfgA])).1
    (by norm_num [ctrlDrag, cfgA])

theorem mousemove_pan (cfg : Cfg) (c : Ctrl) (a b : Option ℚ) (rw rh : ℚ)
    (hrw : widthRatio cfg = .fin rw) (hrh : heightRatio cfg = .fin rh) :
    panSumX (mousemove cfg c a b).2 = .fin ((c.left - (mousemove cfg c a b).1.left) * rw) ∧
    panSumY (mousemove cfg c a b).2 = .fin ((c.top - (mousemove cfg c a b).1.top) * rh) := by
  cases hd : c.dragging
  · rw [mousemove_idle cfg c a b hd]; simp [panSumX, panSumY]
  · cases a with
    | none => rw [mousemove_nil cfg c _ b (Or.inl rfl)]; simp [panSumX, panSumY]
    | some ex =>
      cases b with
      | none => rw [mousemove_nil cfg c _ _ (Or.inr rfl)]; simp [panSumX, panSumY]
      | some ey =>
        rw [mousemove_drag cfg c ex ey hd, hrw, hrh]
        simp [panSumX, panSumY, JSNum.mul, JSNum.add]

theorem panSumX_append (xs ys : List Effect) (a b : ℚ)
    (hx : panSumX xs = .fin a) (hy : panSumX ys = .fin b) :
    panSumX (xs ++ ys) = .fin (a + b) := by
  induction xs generalizing a with
  | nil =>
    simp only [panSumX, JSNum.fin.injEq] at hx
    simp [hy, ← hx]
  | cons e es ih =>
    cases e with
    | modifyCSS l t =>
      simp only [List.cons_append, panSumX] at hx ⊢
      exact ih a hx
    | translate dx dy =>
      simp only [List.cons_append, panSumX] at hx ⊢
      cases hes : panSumX es with
      | fin q =>
        rw [hes] at hx
        cases dx with
        | fin d =>
          simp only [JSNum.add, JSNum.fin.injEq] at hx
          rw [List.append_eq, ih q hes]
          simp only [JSNum.add, JSNum.fin.injEq]
          linarith
        | posInf => simp [JSNum.add] at hx
        | negInf => simp [JSNum.add] at hx
        | nan => simp [JSNum.add] at hx
      | posInf => rw [hes] at hx; cases dx <;> simp [JSNum.add] at hx
      | negInf => rw [hes] at hx; cases dx <;> simp [JSNum.add] at hx
      | nan => rw [hes] at hx; cases dx <;> simp [JSNum.add] at hx

theorem panSumY_append (xs ys : List Effect) (a b : ℚ)
    (hx : panSumY xs = .fin a) (hy : panSumY ys = .fin b) :
    panSumY (xs ++ ys) = .fin (a + b) := by
  induction xs generalizing a with
  | nil =>
    simp only [panSumY, JSNum.fin.injEq] at hx
    simp [hy, ← hx]
  | cons e es ih =>
    cases e with
    | modifyCSS l t =>
      simp only [List.cons_append, panSumY] at hx ⊢
      exact ih a hx
    | translate dx dy =>
      simp only [List.cons_append, panSumY] at hx ⊢
      cases hes : panSumY es with
      | fin q =>
        rw [hes] at hx
        cases dy with
        | fin d =>
          simp only [JSNum.add, JSNum.fin.injEq] at hx
          rw [List.append_eq, ih q hes]
          simp only [JSNum.add, JSNum.fin.injEq]
          linarith
        | posInf => simp [JSNum.add] at hx
        | negInf => simp [JSNum.add] at hx
        | nan => simp [JSNum.add] at hx
      | posInf => rw [hes] at hx; cases dy <;> simp [JSNum.add] at hx
      | negInf => rw [hes] at hx; cases dy <;> simp [JSNum.add] at hx
      | nan => rw [hes] at hx; cases dy <;> simp [JSNum.add] at hx

theorem run_moves_pan (cfg : Cfg) (rw rh : ℚ)
    (hrw : widthRatio cfg = .fin rw) (hrh : heightRatio cfg = .fin rh)
    (ms : List (Option ℚ × Option ℚ)) :
    ∀ c : Ctrl,
      panSumX (run cfg c (moves ms)).2 = .fin ((c.left - (run cfg c (moves ms)).1.left) * rw) ∧
      panSumY (run cfg c (moves ms)).2 = .fin ((c.top - (run cfg c (moves ms)).1.top) * rh) := by
  induction ms with
  | nil => intro c; simp [moves, run, panSumX, panSumY]
  | cons m ms ih =>
    intro c
    have h1 := mousemove_pan cfg c m.1 m.2 rw rh hrw hrh
    have h2 := ih (mousemove cfg c m.1 m.2).1
    simp only [moves, List.map_cons, run, step]
    simp only [moves] at h2
    constructor
    · rw [panSumX_append _ _ _ _ h1.1 h2.1]
      congr 1; ring
    · rw [panSumY_append _ _ _ _ h1.2 h2.2]
      congr 1; ring

theorem run_moves_keeps (cfg : Cfg) (ms : List (Option ℚ × Option ℚ)) :
    ∀ c : Ctrl, (run cfg c (moves ms)).1.dragging = c.dragging := by
  induction ms with
  | nil => intro c; rfl
  | cons m ms ih =>
    intro c
    simp only [moves, List.map_cons, run, step]
    have h := ih (mousemove cfg c m.1 m.2).1
    simp only [moves] at h
    rw [h, (mousemove_keeps cfg c m.1 m.2).2.2]

theorem mousemove_displacement (cfg : Cfg) (c : Ctrl) (ex ey : ℚ) (hd : c.dragging = true) :
    (mousemove cfg c (some ex) (some ey)).2 =
      [Effect.modifyCSS (mousemove cfg c (some ex) (some ey)).1.left
          (mousemove cfg c (some ex) (some ey)).1.top,
       Effect.translate
          (JSNum.mul (.fin (c.left - (mousemove cfg c (some ex) (some ey)).1.left))
            (widthRatio cfg))
          (JSNum.mul (.fin (c.top - (mousemove cfg c (some ex) (some ey)).1.top))
            (heightRatio cfg))] := by
  rw [mousemove_drag cfg c ex ey hd]
  simp

theorem size_pos_of_accept (s : Style) (size0 size1 : ℚ)
    (hw : (parseInt s.width : ℚ) < size0) (hh : (parseInt s.height : ℚ) < size1) :
    0 < size0 ∧ 0 < size1 := by
  have h1 : (0 : ℚ) ≤ parseInt s.width := by exact_mod_cast parseInt_nonneg _ s.width_nonneg
  have h2 : (0 : ℚ) ≤ parseInt s.height := by exact_mod_cast parseInt_nonneg _ s.height_nonneg
  constructor <;> linarith

/-- C10: after an accepted pointer-down and any sequence of pointer-move events, the horizontal
pan amounts issued add up to `(left captured at pointer-down - current left) × widthRatio` and
the vertical ones to `(top captured at pointer-down - current top) × heightRatio`, both ratios
being finite; and each processed move pans by exactly the displacement of the rectangle it
writes, times the ratio, with opposite sign. -/
theorem pan_conservation (cfg : Cfg) (c : Ctrl) (clientX clientY : ℚ)
    (ms : List (Option ℚ × Option ℚ))
    (hw : (parseInt c.style.width : ℚ) < cfg.size0)
    (hh : (parseInt c.style.height : ℚ) < cfg.size1) :
    panSumX (run cfg (mousedown cfg c true clientX clientY) (moves ms)).2 =
      JSNum.mul (.fin ((parseInt c.style.left : ℚ) -
        (run cfg (mousedown cfg c true clientX clientY) (moves ms)).1.left)) (widthRatio cfg) ∧
    panSumY (run cfg (mousedown cfg c true clientX clientY) (moves ms)).2 =
      JSNum.mul (.fin ((parseInt c.style.top : ℚ) -
        (run cfg (mousedown cfg c true clientX clientY) (moves ms)).1.top)) (heightRatio cfg) ∧
    widthRatio cfg = .fin (cfg.graphWidth / cfg.size0 * pixelRatio cfg) ∧
    heightRatio cfg = .fin (cfg.graphHeight / cfg.size1 * pixelRatio cfg) ∧
    ∀ (k : ℕ) (ex ey : ℚ),
      (mousemove cfg (run cfg (mousedown cfg c true clientX clientY) (moves (ms.take k))).1
          (some ex) (some ey)).2 =
        [Effect.modifyCSS
          (mousemove cfg (run cfg (mousedown cfg c true clientX clientY) (moves (ms.take k))).1
            (some ex) (some ey)).1.left
          (mousemove cfg (run cfg (mousedown cfg c true clientX clientY) (moves (ms.take k))).1
            (some ex) (some ey)).1.top,
         Effect.translate
          (JSNum.mul (.fin
            ((run cfg (mousedown cfg c true clientX clientY) (moves (ms.take k))).1.left -
              (mousemove cfg
                (run cfg (mousedown cfg c true clientX clientY) (moves (ms.take k))).1
                (some ex) (some ey)).1.left)) (widthRatio cfg))
          (JSNum.mul (.fin
            ((run cfg (mousedown cfg c true clientX clientY) (moves (ms.take k))).1.top -
              (mousemove cfg
                (run cfg (mousedown cfg c true clientX clientY) (moves (ms.take k))).1
                (some ex) (some ey)).1.top)) (heightRatio cfg))] := by
  have hpos := size_pos_of_accept c.style cfg.size0 cfg.size1 hw hh
  have hrw := widthRatio_fin cfg (ne_of_gt hpos.1)
  have hrh := heightRatio_fin cfg (ne_of_gt hpos.2)
  have hacc := mousedown_accept cfg c clientX clientY hw hh
  have hd : (mousedown cfg c true clientX clientY).dragging = true := by rw [hacc]
  have hl : (mousedown cfg c true clientX clientY).left = parseInt c.style.left := by rw [hacc]
  have ht : (mousedown cfg c true clientX clientY).top = parseInt c.style.top := by rw [hacc]
  have key := run_moves_pan cfg _ _ hrw hrh ms (mousedown cfg c true clientX clientY)
  rw [hl, ht] at key
  refine ⟨?_, ?_, hrw, hrh, ?_⟩
  · rw [key.1, hrw]; rfl
  · rw [key.2, hrh]; rfl
  · intro k ex ey
    apply mousemove_displacement
    rw [run_moves_keeps, hd]

theorem pan_conservation_witness :
    panSumX (run cfgA (mousedown cfgA (Ctrl.init styleA) true 50 50)
        (moves [(some 300, some 50), (some (-500), some 400)])).2 =
      JSNum.mul (.fin ((parseInt (Ctrl.init styleA).style.left : ℚ) -
        (run cfgA (mousedown cfgA (Ctrl.init styleA) true 50 50)
          (moves [(some 300, some 50), (some (-500), some 400)])).1.left)) (widthRatio cfgA) :=
  (pan_conservation cfgA (Ctrl.init styleA) 50 50 [(some 300, some 50), (some (-500), some 400)]
    (by
      show ((parseInt styleA.width : ℤ) : ℚ) < 200
      rw [styleA_parsed.2.2.1]; norm_num)
    (by
      show ((parseInt styleA.height : ℤ) : ℚ) < 120
      rw [styleA_parsed.2.2.2]; norm_num)).1

theorem mousedown_refuse (cfg : Cfg) (c : Ctrl) (clientX clientY : ℚ)
    (href : (parseInt c.style.width : ℚ) ≥ cfg.size0 ∨
      (parseInt c.style.height : ℚ) ≥ cfg.size1) :
    mousedown cfg c true clientX clientY =
      { c with
        left := parseInt c.style.left, top := parseInt c.style.top
        width := parseInt c.style.width, height := parseInt c.style.height } := by
  simp only [mousedown, Bool.true_eq_false, if_false]
  rw [if_pos href]

theorem mousedown_style (cfg : Cfg) (c : Ctrl) (o : Bool) (clientX clientY : ℚ) :
    (mousedown cfg c o clientX clientY).style = c.style := by
  simp only [mousedown]
  split_ifs <;> rfl

theorem mousedown_dragging (cfg : Cfg) (c : Ctrl) (o : Bool) (clientX clientY : ℚ) :
    (mousedown cfg c o clientX clientY).dragging =
      (accepted cfg c (.mousedown o clientX clientY) || c.dragging) := by
  cases o with
  | false => simp [mousedown, accepted]
  | true =>
    by_cases href : (parseInt c.style.width : ℚ) ≥ cfg.size0 ∨
        (parseInt c.style.height : ℚ) ≥ cfg.size1
    · rw [mousedown_refuse cfg c clientX clientY href]
      have : accepted cfg c (.mousedown true clientX clientY) = false := by
        rcases href with h | h <;> simp [accepted, h]
      rw [this]; simp
    · have hw : (parseInt c.style.width : ℚ) < cfg.size0 := by
        apply lt_of_not_ge; intro h; exact href (Or.inl h)
      have hh : (parseInt c.style.height : ℚ) < cfg.size1 := by
        apply lt_of_not_ge; intro h; exact href (Or.inr h)
      rw [mousedown_accept cfg c clientX clientY hw hh]
      simp [accepted, hw, hh]

theorem run_moves_idle (cfg : Cfg) (ms : List (Option ℚ × Option ℚ)) (c : Ctrl)
    (h : c.dragging = false) : run cfg c (moves ms) = (c, []) := by
  induction ms with
  | nil => rfl
  | cons m ms ih =>
    simp only [moves, List.map_cons, run, step]
    rw [mousemove_idle cfg c m.1 m.2 h]
    simp only [moves] at ih
    rw [ih]
    rfl

theorem step_idleAlike (cfg : Cfg) (c d : Ctrl) (h : idleAlike c d) (e : Event) :
    (step cfg c e).2 = (step cfg d e).2 ∧
    (idleAlike (step cfg c e).1 (step cfg d e).1 ∨ (step cfg c e).1 = (step cfg d e).1) := by
  obtain ⟨hc, hd, hs⟩ := h
  cases e with
  | mousedown o cx cy =>
    refine ⟨rfl, ?_⟩
    cases o with
    | false => left; exact ⟨by simp [step, mousedown, hc], by simp [step, mousedown, hd], by
        simp [step, mousedown, hs]⟩
    | true =>
      by_cases href : (parseInt c.style.width : ℚ) ≥ cfg.size0 ∨
          (parseInt c.style.height : ℚ) ≥ cfg.size1
      · left
        have href2 : (parseInt d.style.width : ℚ) ≥ cfg.size0 ∨
            (parseInt d.style.height : ℚ) ≥ cfg.size1 := by rw [← hs]; exact href
        simp only [step]
        rw [mousedown_refuse cfg c cx cy href, mousedown_refuse cfg d cx cy href2]
        exact ⟨hc, hd, hs⟩
      · right
        have hw : (parseInt c.style.width : ℚ) < cfg.size0 := by
          apply lt_of_not_ge; intro h; exact href (Or.inl h)
        have hh : (parseInt c.style.height : ℚ) < cfg.size1 := by
          apply lt_of_not_ge; intro h; exact href (Or.inr h)
        simp only [step]
        rw [mousedown_accept cfg c cx cy hw hh,
          mousedown_accept cfg d cx cy (by rw [← hs]; exact hw) (by rw [← hs]; exact hh), hs]
  | mousemove a b =>
    simp only [step]
    rw [mousemove_idle cfg c a b hc, mousemove_idle cfg d a b hd]
    exact ⟨rfl, Or.inl ⟨hc, hd, hs⟩⟩
  | mouseleave => exact ⟨rfl, Or.inl ⟨rfl, rfl, hs⟩⟩
  | mouseup => exact ⟨rfl, Or.inl ⟨rfl, rfl, hs⟩⟩
  | restyle s => exact ⟨rfl, Or.inl ⟨hc, hd, rfl⟩⟩

theorem run_idleAlike (cfg : Cfg) (es : List Event) :
    ∀ c d : Ctrl, idleAlike c d → (run cfg c es).2 = (run cfg d es).2 := by
  induction es with
  | nil => intro c d _; rfl
  | cons e es ih =>
    intro c d h
    obtain ⟨h1, h2⟩ := step_idleAlike cfg c d h e
    simp only [run]
    rw [h1]
    rcases h2 with h2 | h2
    · rw [ih _ _ h2]
    · rw [h2]

/-- C6: on an idle controller a pointer-down on the rectangle whose width, as the handler
reads it, is at least `minimapWidth`, or whose height is at least `minimapHeight`, is refused:
the session is the same as before (idle), the pointer variables and the rectangle are
unchanged, nothing is issued, every following sequence of pointer-moves issues no pan command
and leaves the controller and the rectangle as they are, and on every later sequence of events
the controller issues what it would have issued without the refused pointer-down. -/
theorem refused_drag (cfg : Cfg) (c : Ctrl) (clientX clientY : ℚ) (hidle : c.dragging = false)
    (href : (parseInt c.style.width : ℚ) ≥ cfg.size0 ∨
      (parseInt c.style.height : ℚ) ≥ cfg.size1) :
    (step cfg c (.mousedown true clientX clientY)).2 = [] ∧
    (mousedown cfg c true clientX clientY).session = c.session ∧
    (mousedown cfg c true clientX clientY).session = Session.idle ∧
    (mousedown cfg c true clientX clientY).dragging = false ∧
    (mousedown cfg c true clientX clientY).x = c.x ∧
    (mousedown cfg c true clientX clientY).y = c.y ∧
    (mousedown cfg c true clientX clientY).style = c.style ∧
    (∀ ms, run cfg (mousedown cfg c true clientX clientY) (moves ms) =
      (mousedown cfg c true clientX clientY, [])) ∧
    (∀ es, (run cfg (mousedown cfg c true clientX clientY) es).2 = (run cfg c es).2) := by
  have hm := mousedown_refuse cfg c clientX clientY href
  have hd : (mousedown cfg c true clientX clientY).dragging = false := by rw [hm]; exact hidle
  have hs : (mousedown cfg c true clientX clientY).style = c.style := by rw [hm]
  refine ⟨rfl, ?_, ?_, hd, by rw [hm], by rw [hm], hs, ?_, ?_⟩
  · simp [Ctrl.session, hd, hidle]
  · simp [Ctrl.session, hd]
  · intro ms
    exact run_moves_idle cfg ms _ hd
  · intro es
    exact run_idleAlike cfg es _ _ ⟨hd, hidle, hs⟩

theorem refused_drag_witness :
    run cfgA (mousedown cfgA (Ctrl.init styleFull) true 50 50)
        (moves [(some 80, some 50), (some 20, some 90)]) =
      (mousedown cfgA (Ctrl.init styleFull) true 50 50, []) :=
  (refused_drag cfgA (Ctrl.init styleFull) 50 50 rfl
    (Or.inl (by
      show ((parseInt ((200 : ℕ) : ℚ) : ℤ) : ℚ) ≥ 200
      rw [parseInt_natCast]; norm_num))).2.2.2.2.2.2.2.1 [(some 80, some 50), (some 20, some 90)]

theorem step_marker (cfg : Cfg) (c : Ctrl) (m : Option Marker) (e : Event)
    (h : c.dragging = true ↔ m = some .down) :
    (step cfg c e).1.dragging = true ↔
      (if accepted cfg c e then some Marker.down
       else match e with
         | .mouseup => some .up
         | .mouseleave => some .leave
         | _ => m) = some .down := by
  cases e with
  | mousedown o cx cy =>
    simp only [step]
    rw [mousedown_dragging]
    cases hacc : accepted cfg c (.mousedown o cx cy)
    · simpa using h
    · simp
  | mousemove a b =>
    simp only [step, accepted]
    rw [(mousemove_keeps cfg c a b).2.2]
    simpa using h
  | mouseleave => simp [step, accepted]
  | mouseup => simp [step, accepted]
  | restyle s => simpa [step, accepted] using h

theorem run_marker (cfg : Cfg) (es : List Event) :
    ∀ (c : Ctrl) (m : Option Marker), (c.dragging = true ↔ m = some .down) →
      ((run cfg c es).1.dragging = true ↔ lastMarker cfg c es m = some .down) := by
  induction es with
  | nil => intro c m h; simpa [run, lastMarker] using h
  | cons e es ih =>
    intro c m h
    simp only [run, lastMarker]
    exact ih _ _ (step_marker cfg c m e h)

/-- C7: starting from the controller as `initViewport` leaves it, after any sequence of events
a pointer-move with defined coordinates issues exactly one rectangle position update followed
by exactly one pan command if the most recent earlier event among accepted pointer-down,
pointer-up and pointer-leave is an accepted pointer-down, and issues nothing otherwise (in
particular after a pointer-up or pointer-leave, until a new accepted pointer-down); a
pointer-move with an undefined coordinate issues nothing. -/
theorem pan_only_while_dragging (cfg : Cfg) (s : Style) (es : List Event) (ex ey : ℚ) :
    (lastMarker cfg (Ctrl.init s) es none = some .down →
      ∃ l t dx dy, (step cfg (run cfg (Ctrl.init s) es).1 (.mousemove (some ex) (some ey))).2 =
        [Effect.modifyCSS l t, Effect.translate dx dy]) ∧
    (lastMarker cfg (Ctrl.init s) es none ≠ some .down →
      (step cfg (run cfg (Ctrl.init s) es).1 (.mousemove (some ex) (some ey))).2 = []) ∧
    (∀ a b, a = none ∨ b = none →
      (step cfg (run cfg (Ctrl.init s) es).1 (.mousemove a b)).2 = []) := by
  have key := run_marker cfg es (Ctrl.init s) none (by simp [Ctrl.init])
  refine ⟨?_, ?_, ?_⟩
  · intro h
    have hd := key.mpr h
    simp only [step]
    rw [mousemove_drag cfg _ ex ey hd]
    exact ⟨_, _, _, _, rfl⟩
  · intro h
    have hd : (run cfg (Ctrl.init s) es).1.dragging = false := by
      cases hb : (run cfg (Ctrl.init s) es).1.dragging
      · rfl
      · exact absurd (key.mp hb) h
    simp only [step]
    rw [mousemove_idle cfg _ _ _ hd]
  · intro a b hab
    simp only [step]
    rw [mousemove_nil cfg _ a b hab]

theorem lastMarker_down_styleA :
    lastMarker cfgA (Ctrl.init styleA) [.mousedown true 50 50] none = some .down := by
  have hw : ¬ ((parseInt (Ctrl.init styleA).style.width : ℤ) : ℚ) ≥ cfgA.size0 := by
    show ¬ ((parseInt styleA.width : ℤ) : ℚ) ≥ 200
    rw [styleA_parsed.2.2.1]; norm_num
  have hh : ¬ ((parseInt (Ctrl.init styleA).style.height : ℤ) : ℚ) ≥ cfgA.size1 := by
    show ¬ ((parseInt styleA.height : ℤ) : ℚ) ≥ 120
    rw [styleA_parsed.2.2.2]; norm_num
  simp [lastMarker, accepted, hw, hh]

theorem pan_only_while_dragging_witness :
    ∃ l t dx dy,
      (step cfgA (run cfgA (Ctrl.init styleA) [.mousedown true 50 50]).1
        (.mousemove (some 80) (some 50))).2 = [Effect.modifyCSS l t, Effect.translate dx dy] :=
  (pan_only_while_dragging cfgA styleA [.mousedown true 50 50] 80 50).1 lastMarker_down_styleA

/-- A session from start to end: the move before the pointer-down, the move after the
pointer-up and the move with an undefined coordinate issue nothing; the two moves in between
issue one position update and one pan command each. -/
theorem run_session_trace :
    (run cfgA (Ctrl.init styleA)
      [.mousemove (some 40) (some 40), .mousedown true 50 50, .mousemove (some 80) (some 50),
       .mousemove none (some 50), .mousemove (some 20) (some 50), .mouseup,
       .mousemove (some 0) (some 0)]).2 =
      [Effect.modifyCSS 40 20, Effect.translate (.fin (-120)) (.fin 0),
       Effect.modifyCSS 0 20, Effect.translate (.fin 160) (.fin 0)] := by
  have hwr : widthRatio cfgA = .fin 4 := by
    rw [widthRatio_fin cfgA (by norm_num [cfgA])]; norm_num [cfgA, pixelRatio]
  have hhr : heightRatio cfgA = .fin 5 := by
    rw [heightRatio_fin cfgA (by norm_num [cfgA])]; norm_num [cfgA, pixelRatio]
  have hw : ((parseInt (Ctrl.init styleA).style.width : ℤ) : ℚ) < cfgA.size0 := by
    show ((parseInt styleA.width : ℤ) : ℚ) < 200
    rw [styleA_parsed.2.2.1]; norm_num
  have hh : ((parseInt (Ctrl.init styleA).style.height : ℤ) : ℚ) < cfgA.size1 := by
    show ((parseInt styleA.height : ℤ) : ℚ) < 120
    rw [styleA_parsed.2.2.2]; norm_num
  have hs : (Ctrl.init styleA).style = styleA := rfl
  simp only [run, step]
  rw [mousemove_idle cfgA (Ctrl.init styleA) _ _ rfl,
    mousedown_accept cfgA (Ctrl.init styleA) 50 50 hw hh, hs,
    styleA_parsed.1, styleA_parsed.2.1, styleA_parsed.2.2.1, styleA_parsed.2.2.2]
  rw [mousemove_drag _ _ 80 50 rfl]
  rw [mousemove_nil _ _ none (some 50) (Or.inl rfl)]
  rw [mousemove_drag _ _ 20 50 rfl]
  rw [mousemove_idle _ _ _ _ rfl, hwr, hhr]
  norm_num [clampDelta, cfgA, JSNum.mul]

/-! ## Theorems: `updateCanvas` -/

theorem mul_one_left (a : JSNum) : JSNum.mul (.fin 1) a = a := by
  cases a <;> simp [JSNum.mul]

theorem updateCanvas_eq (i : CanvasInput) (m : CanvasMatrix) :
    updateCanvas i m =
      { scaleX := specFitScale i.size0 i.bboxWidth i.graphWidth i.pixelRatio
        scaleY := specFitScale i.size1 i.bboxHeight i.graphHeight i.pixelRatio } := by
  simp only [updateCanvas, scale, resetMatrix, mul_one_left, specFitScale]

theorem specFitScale_empty (dim main pr : ℚ) (hmain : 0 < main) :
    JSNum.max (.fin 0) (.fin main) = .fin main ∧
    specFitScale dim (.fin 0) main pr = .fin (dim / main * pr) := by
  have hmax : JSNum.max (.fin 0) (.fin main) = .fin main := by
    simp [JSNum.max, hmain.le]
  refine ⟨hmax, ?_⟩
  simp only [specFitScale, hmax]
  rw [div_fin_of_ne _ _ (ne_of_gt hmain)]
  rfl

/-- C8 (as stated, refuted): with no content (bounding box 0x0) and a positive 800x600 main
canvas, a minimap configured with width 0 gets the horizontal scale `0 / 800 × 1 = 0`: the
scale is finite but zero. -/
theorem updateCanvas_zero_scale :
    (updateCanvas ⟨0, 120, 800, 600, 1, .fin 0, .fin 0⟩ ⟨.fin 1, .fin 1⟩).scaleX = .fin 0 ∧
    JSNum.degenerate
      (updateCanvas ⟨0, 120, 800, 600, 1, .fin 0, .fin 0⟩ ⟨.fin 1, .fin 1⟩).scaleX = true := by
  have h : (updateCanvas ⟨0, 120, 800, 600, 1, .fin 0, .fin 0⟩ ⟨.fin 1, .fin 1⟩).scaleX
      = .fin 0 := by
    rw [updateCanvas_eq]
    show specFitScale 0 (.fin 0) 800 1 = .fin 0
    rw [(specFitScale_empty 0 800 1 (by norm_num)).2]
    norm_num
  refine ⟨h, ?_⟩
  rw [h]
  simp [JSNum.degenerate, JSNum.isFinite]

/-- C8 (amended): in every pass the scale that `updateCanvas` leaves on the minimap canvas is,
on each axis and whatever the prior matrix, `minimapDim / max(contentBBoxDim, mainCanvasDim) ×
pixelRatio`; with a 0x0 content bounding box and positive main-canvas dimensions the world size
is the main canvas's own dimensions and the scale is `minimapDim / mainCanvasDim × pixelRatio`,
which is finite, and non-zero when the minimap dimension and the pixel ratio are non-zero; the
pass has no failure path. -/
theorem updateCanvas_fit_scale (i : CanvasInput) (m : CanvasMatrix) :
    (updateCanvas i m).scaleX = specFitScale i.size0 i.bboxWidth i.graphWidth i.pixelRatio ∧
    (updateCanvas i m).scaleY = specFitScale i.size1 i.bboxHeight i.graphHeight i.pixelRatio ∧
    (i.bboxWidth = .fin 0 → 0 < i.graphWidth →
      JSNum.max i.bboxWidth (.fin i.graphWidth) = .fin i.graphWidth ∧
      (updateCanvas i m).scaleX = .fin (i.size0 / i.graphWidth * i.pixelRatio) ∧
      (i.size0 ≠ 0 → i.pixelRatio ≠ 0 →
        JSNum.degenerate (updateCanvas i m).scaleX = false)) ∧
    (i.bboxHeight = .fin 0 → 0 < i.graphHeight →
      JSNum.max i.bboxHeight (.fin i.graphHeight) = .fin i.graphHeight ∧
      (updateCanvas i m).scaleY = .fin (i.size1 / i.graphHeight * i.pixelRatio) ∧
      (i.size1 ≠ 0 → i.pixelRatio ≠ 0 →
        JSNum.degenerate (updateCanvas i m).scaleY = false)) := by
  have he := updateCanvas_eq i m
  have hx : (updateCanvas i m).scaleX =
      specFitScale i.size0 i.bboxWidth i.graphWidth i.pixelRatio := by rw [he]
  have hy : (updateCanvas i m).scaleY =
      specFitScale i.size1 i.bboxHeight i.graphHeight i.pixelRatio := by rw [he]
  refine ⟨hx, hy, ?_, ?_⟩
  · intro hb hw
    have h := specFitScale_empty i.size0 i.graphWidth i.pixelRatio hw
    rw [hx, hb]
    refine ⟨h.1, h.2, ?_⟩
    intro h0 hp
    rw [h.2]
    have : i.size0 / i.graphWidth * i.pixelRatio ≠ 0 :=
      mul_ne_zero (div_ne_zero h0 (ne_of_gt hw)) hp
    simp [JSNum.degenerate, JSNum.isFinite, this]
  · intro hb hh
    have h := specFitScale_empty i.size1 i.graphHeight i.pixelRatio hh
    rw [hy, hb]
    refine ⟨h.1, h.2, ?_⟩
    intro h0 hp
    rw [h.2]
    have : i.size1 / i.graphHeight * i.pixelRatio ≠ 0 :=
      mul_ne_zero (div_ne_zero h0 (ne_of_gt hh)) hp
    simp [JSNum.degenerate, JSNum.isFinite, this]

theorem updateCanvas_fit_scale_witness :
    (updateCanvas ⟨200, 120, 800, 600, 2, .fin 0, .fin 0⟩ ⟨.fin 7, .nan⟩).scaleX =
      .fin (200 / 800 * 2) ∧
    JSNum.degenerate
      (updateCanvas ⟨200, 120, 800, 600, 2, .fin 0, .fin 0⟩ ⟨.fin 7, .nan⟩).scaleX = false :=
  ⟨((updateCanvas_fit_scale ⟨200, 120, 800, 600, 2, .fin 0, .fin 0⟩ ⟨.fin 7, .nan⟩).2.2.1
      rfl (by norm_num)).2.1,
   ((updateCanvas_fit_scale ⟨200, 120, 800, 600, 2, .fin 0, .fin 0⟩ ⟨.fin 7, .nan⟩).2.2.1
      rfl (by norm_num)).2.2 (by norm_num) (by norm_num)⟩

/-- C9 (as stated, refuted): with a main canvas of width and height 0, no content, minimap
200x0 and pixel ratio 1, the computed scales are `200 / 0 × 1 = Infinity` and `0 / 0 × 1 = NaN`;
`updateCanvas` applies them: the prior matrix (1/4, 1/5) is replaced by (Infinity, NaN). -/
theorem updateCanvas_applies_infinity :
    specFitScale 200 (.fin 0) 0 1 = .posInf ∧ specFitScale 0 (.fin 0) 0 1 = .nan ∧
    updateCanvas ⟨200, 0, 0, 0, 1, .fin 0, .fin 0⟩ ⟨.fin (1/4), .fin (1/5)⟩ =
      ⟨.posInf, .nan⟩ ∧
    updateCanvas ⟨200, 0, 0, 0, 1, .fin 0, .fin 0⟩ ⟨.fin (1/4), .fin (1/5)⟩ ≠
      ⟨.fin (1/4), .fin (1/5)⟩ := by
  have h1 : specFitScale 200 (.fin 0) 0 1 = .posInf := by
    simp [specFitScale, JSNum.max, JSNum.div, JSNum.mul]
  have h2 : specFitScale 0 (.fin 0) 0 1 = .nan := by
    simp [specFitScale, JSNum.max, JSNum.div, JSNum.mul]
  have h3 : updateCanvas ⟨200, 0, 0, 0, 1, .fin 0, .fin 0⟩ ⟨.fin (1/4), .fin (1/5)⟩ =
      ⟨.posInf, .nan⟩ := by
    rw [updateCanvas_eq]
    show CanvasMatrix.mk (specFitScale 200 (.fin 0) 0 1) (specFitScale 0 (.fin 0) 0 1) = _
    rw [h1, h2]
  refine ⟨h1, h2, h3, ?_⟩
  rw [h3]
  simp

/-- C9 (amended): `updateCanvas` has no check on the fit scale.  In every pass in which a
computed fit scale is zero or non-finite, the pass still resets the matrix and applies the
computed scales, so the minimap canvas ends with that zero or non-finite scale, whatever its
prior matrix was. -/
theorem updateCanvas_applies_degenerate (i : CanvasInput) (m : CanvasMatrix)
    (h : JSNum.degenerate (specFitScale i.size0 i.bboxWidth i.graphWidth i.pixelRatio) = true ∨
      JSNum.degenerate (specFitScale i.size1 i.bboxHeight i.graphHeight i.pixelRatio) = true) :
    updateCanvas i m =
      { scaleX := specFitScale i.size0 i.bboxWidth i.graphWidth i.pixelRatio
        scaleY := specFitScale i.size1 i.bboxHeight i.graphHeight i.pixelRatio } ∧
    (JSNum.degenerate (updateCanvas i m).scaleX = true ∨
      JSNum.degenerate (updateCanvas i m).scaleY = true) := by
  have he := updateCanvas_eq i m
  refine ⟨he, ?_⟩
  rw [he]
  exact h

theorem updateCanvas_applies_degenerate_witness :
    updateCanvas ⟨200, 120, 0, 600, 1, .fin 0, .fin 0⟩ ⟨.fin 3, .fin 3⟩ =
      { scaleX := specFitScale 200 (.fin 0) 0 1
        scaleY := specFitScale 120 (.fin 0) 600 1 } ∧
    (JSNum.degenerate
        (updateCanvas ⟨200, 120, 0, 600, 1, .fin 0, .fin 0⟩ ⟨.fin 3, .fin 3⟩).scaleX = true ∨
      JSNum.degenerate
        (updateCanvas ⟨200, 120, 0, 600, 1, .fin 0, .fin 0⟩ ⟨.fin 3, .fin 3⟩).scaleY = true) :=
  updateCanvas_applies_degenerate ⟨200, 120, 0, 600, 1, .fin 0, .fin 0⟩ ⟨.fin 3, .fin 3⟩
    (Or.inl (by simp [specFitScale, JSNum.max, JSNum.div, JSNum.mul, JSNum.degenerate,
      JSNum.isFinite]))

end Minimap
